import Mathlib

/-!
Shallow embedding of the oil-price structural-break-detection repository
(`src/src/event_integration.py`, `src/src/data_loader.py`, `src/src/eda.py`,
`src/backend/utils.py`, `src/backend/app.py`) together with theorems settling
the frozen claims about it.

Modelling conventions:
* calendar dates / pandas Timestamps are day numbers (`Int`);
* price values are exact rationals (`ℚ`);
* a pandas cell that may be `NaN` is an `Option`;
* a fallible Python function returns `Except`, with the distinct Python
  exception classes kept apart in a small error type;
* `pandas.Series.std` is `sqrt` of the sample variance; since the square root
  is applied identically by the code and by the specification, the embedding
  stores the radicand (the sample variance) in the `volatility_window` field,
  so that every value stays inside `ℚ` and all definitions stay executable.
-/

deriving instance DecidableEq for Except

namespace Oil

/-- Calendar dates are modelled as integer day numbers. -/
abbrev Date := Int

/-- Embedding of the price DataFrame handed to `align_events_with_prices`:
a (possibly datetime-) indexed table whose rows carry one rational cell per
column name in `cols`.  The flag `datetimeIndex` models the dynamic
`isinstance(price_df.index, pd.DatetimeIndex)` check of the source. -/
structure PriceDF where
  cols : List String
  datetimeIndex : Bool
  rows : List (Date × List ℚ)
deriving DecidableEq, Repr

/-- Reading one named column of a price DataFrame as (date, value) pairs,
the way `price_df[...][price_column]` does once the column is known present. -/
def PriceDF.column (p : PriceDF) (c : String) : List (Date × ℚ) :=
  p.rows.map (fun r => (r.1, r.2.getD (p.cols.indexOf c) 0))

/-- Embedding of one cell of the `event_date` column before
`pd.to_datetime` runs: missing (`NaT`/`NaN`), a valid date, or an
unparseable string. -/
inductive DateCell where
  | na : DateCell
  | val (d : Date) : DateCell
  | bad (s : String) : DateCell
deriving DecidableEq, Repr

/-- Embedding of one row of the event DataFrame handed to
`align_events_with_prices`. -/
structure EventRow where
  event_date : DateCell
  event_type : Option String
  impact_type : Option String
  severity : Option String
  descr : String
deriving DecidableEq, Repr

/-- Embedding of one output row of `align_events_with_prices`: the event
fields (with `event_date` already converted by `pd.to_datetime`) plus the
seven derived columns, each `none` while still `NaN`.  `volatility_window`
stores the sample variance (see the header comment). -/
structure AlignedRow where
  event_date : Option Date
  event_type : Option String
  impact_type : Option String
  severity : Option String
  descr : String
  price_before : Option ℚ
  price_after : Option ℚ
  price_change : Option ℚ
  price_change_pct : Option ℚ
  max_price_window : Option ℚ
  min_price_window : Option ℚ
  volatility_window : Option ℚ
deriving DecidableEq, Repr

/-- Embedding of `pd.to_datetime` applied to the whole `event_date` column
(source line 81): `NaT` stays missing, a valid date is parsed, and a single
unparseable cell makes the whole conversion raise. -/
def toDatetime : List DateCell → Except String (List (Option Date))
  | [] => .ok []
  | .na :: rest => (toDatetime rest).map (fun l => none :: l)
  | .val d :: rest => (toDatetime rest).map (fun l => some d :: l)
  | .bad s :: _ => .error s

/-- Arithmetic mean of a list of rationals (`Series.mean` on a nonempty,
NaN-free series). -/
def listMean (l : List ℚ) : ℚ := l.sum / l.length

/-- Maximum of a list of rationals (`Series.max` on a nonempty series). -/
def listMax : List ℚ → ℚ
  | [] => 0
  | x :: xs => xs.foldl max x

/-- Minimum of a list of rationals (`Series.min` on a nonempty series). -/
def listMin : List ℚ → ℚ
  | [] => 0
  | x :: xs => xs.foldl min x

/-- Sample variance with the `NaN` of `Series.std` on fewer than two
observations modelled as `none`; on two or more observations it is the
radicand of the pandas sample standard deviation. -/
def sampleVar (l : List ℚ) : Option ℚ :=
  if l.length ≤ 1 then none
  else some (((l.map (fun x => (x - listMean l) ^ 2)).sum) / ((l.length : ℚ) - 1))

/-- The two Python exception classes raised by `align_events_with_prices`
and the loader. -/
inductive PyError where
  | eventIntegrationError (msg : String) : PyError
  | valueError (msg : String) : PyError
deriving DecidableEq, Repr

/-- Row of the output table right after the derived columns are initialised
to `NaN` (source lines 86-92) and the converted date is stored. -/
def initAligned (e : EventRow) (d : Option Date) : AlignedRow :=
  { event_date := d, event_type := e.event_type, impact_type := e.impact_type,
    severity := e.severity, descr := e.descr,
    price_before := none, price_after := none, price_change := none,
    price_change_pct := none, max_price_window := none,
    min_price_window := none, volatility_window := none }

/-- Embedding of one iteration of the per-event loop of
`align_events_with_prices` (source lines 96-150): the row is returned
unchanged when the event date is `NaN`, when the window holds no prices, or
when the before or the after subset is empty; otherwise the seven derived
fields are filled in. -/
def alignOne (prices : List (Date × ℚ)) (w : Int) (r : AlignedRow) : AlignedRow :=
  match r.event_date with
  | none => r
  | some d =>
    let ws := d - w
    let we := d + w
    let windowPrices := (prices.filter (fun p => decide (ws ≤ p.1) && decide (p.1 ≤ we))).map Prod.snd
    if windowPrices.length = 0 then r
    else
      let beforePrices := (prices.filter (fun p => decide (ws ≤ p.1) && decide (p.1 < d))).map Prod.snd
      let afterPrices := (prices.filter (fun p => decide (d < p.1) && decide (p.1 ≤ we))).map Prod.snd
      if 0 < beforePrices.length ∧ 0 < afterPrices.length then
        let pb := listMean beforePrices
        let pa := listMean afterPrices
        { r with
          price_before := some pb
          price_after := some pa
          price_change := some (pa - pb)
          price_change_pct :=
            if pb ≠ 0 then some ((pa - pb) / pb * 100) else r.price_change_pct
          max_price_window := some (listMax windowPrices)
          min_price_window := some (listMin windowPrices)
          volatility_window := sampleVar windowPrices }
      else r

/-- Embedding of `align_events_with_prices` (source lines 24-158).  The two
DataFrame arguments are `Option`s so that the Python `None` checks are
representable; the `event_date_column` is structural in `EventRow`, so its
presence check always passes and is not modelled. -/
def align_events_with_prices (price_df : Option PriceDF)
    (event_df : Option (List EventRow)) (price_column : String)
    (window_days : Int) : Except PyError (List AlignedRow) :=
  match price_df with
  | none => .error (.eventIntegrationError "Price DataFrame is None or empty")
  | some pdf =>
    if pdf.rows.isEmpty then
      .error (.eventIntegrationError "Price DataFrame is None or empty")
    else match event_df with
    | none => .error (.eventIntegrationError "Event DataFrame is None or empty")
    | some edf =>
      if edf.isEmpty then
        .error (.eventIntegrationError "Event DataFrame is None or empty")
      else if price_column ∈ pdf.cols then
        if window_days ≤ 0 then
          .error (.valueError "window_days must be positive")
        else if pdf.datetimeIndex then
          match toDatetime (edf.map (fun e => e.event_date)) with
          | .error e =>
            .error (.eventIntegrationError ("Failed to convert event dates to datetime: " ++ e))
          | .ok ds =>
            .ok ((edf.zip ds).map
              (fun p => alignOne (pdf.column price_column) window_days (initAligned p.1 p.2)))
        else .error (.eventIntegrationError "Price DataFrame must have DatetimeIndex")
      else
        .error (.eventIntegrationError
          ("Price column \x27" ++ price_column ++ "\x27 not found in price_df"))

/-- Spec-side definition (spec section 4.1): the "before" subset, the prices
with date in the half-open interval `[d − W, d)`. -/
def beforeSubset (prices : List (Date × ℚ)) (d w : Int) : List ℚ :=
  (prices.filter (fun p => decide (d - w ≤ p.1) && decide (p.1 < d))).map Prod.snd

/-- Spec-side definition (spec section 4.1): the "after" subset, the prices
with date in the half-open interval `(d, d + W]`. -/
def afterSubset (prices : List (Date × ℚ)) (d w : Int) : List ℚ :=
  (prices.filter (fun p => decide (d < p.1) && decide (p.1 ≤ d + w))).map Prod.snd

/-- Spec-side definition (spec sections 4.1 and glossary): the full window
subset, the prices with date in the closed interval `[d − W, d + W]`. -/
def windowSubset (prices : List (Date × ℚ)) (d w : Int) : List ℚ :=
  (prices.filter (fun p => decide (d - w ≤ p.1) && decide (p.1 ≤ d + w))).map Prod.snd

/-- Spec-side definition: the sample variance, the square of the sample
standard deviation the spec requests for `volatility_window`. -/
def sampleVariance (l : List ℚ) : ℚ :=
  ((l.map (fun x => (x - listMean l) ^ 2)).sum) / ((l.length : ℚ) - 1)

/-- Filtering by two disjoint predicates, both below a third, keeps at most
as many elements as filtering by the third. -/
theorem length_filter_add_length_filter_le {α : Type} (l : List α)
    (p q r : α → Bool) (hp : ∀ a, p a = true → r a = true)
    (hq : ∀ a, q a = true → r a = true)
    (hpq : ∀ a, ¬(p a = true ∧ q a = true)) :
    (l.filter p).length + (l.filter q).length ≤ (l.filter r).length := by
  induction l with
  | nil => simp
  | cons x xs ih =>
    by_cases hpx : p x = true
    · have hrx : r x = true := hp x hpx
      have hqx : ¬ q x = true := fun hqx => hpq x ⟨hpx, hqx⟩
      simp [List.filter_cons, hpx, hrx, hqx] at *
      omega
    · by_cases hqx : q x = true
      · have hrx : r x = true := hq x hqx
        simp [List.filter_cons, hpx, hrx, hqx] at *
        omega
      · by_cases hrx : r x = true <;> simp [List.filter_cons, hpx, hqx, hrx] at * <;> omega

/-- Everything the success of `align_events_with_prices` reveals: the
structural validations passed, the column-wide date conversion succeeded,
and the output is the per-row map of `alignOne` over the converted events. -/
theorem align_ok_elim (pdf : PriceDF) (edf : List EventRow) (pc : String)
    (w : Int) (out : List AlignedRow)
    (hok : align_events_with_prices (some pdf) (some edf) pc w = .ok out) :
    pdf.rows ≠ [] ∧ edf ≠ [] ∧ pc ∈ pdf.cols ∧
    0 < w ∧ pdf.datetimeIndex = true ∧
    ∃ ds, toDatetime (edf.map (fun e => e.event_date)) = .ok ds ∧
      out = (edf.zip ds).map
        (fun p => alignOne (pdf.column pc) w (initAligned p.1 p.2)) := by
  simp only [align_events_with_prices] at hok
  by_cases h1 : pdf.rows = []
  · simp [h1] at hok
  rw [if_neg (show ¬pdf.rows.isEmpty = true by simpa using h1)] at hok
  by_cases h2 : edf = []
  · simp [h2] at hok
  rw [if_neg (show ¬edf.isEmpty = true by simpa using h2)] at hok
  by_cases h3 : pc ∈ pdf.cols
  swap
  · rw [if_neg h3] at hok; exact absurd hok (by simp)
  rw [if_pos h3] at hok
  by_cases h4 : w ≤ 0
  · rw [if_pos h4] at hok; exact absurd hok (by simp)
  rw [if_neg h4] at hok
  by_cases h5 : pdf.datetimeIndex = true
  swap
  · rw [if_neg h5] at hok; exact absurd hok (by simp)
  rw [if_pos h5] at hok
  cases htd : toDatetime (edf.map (fun e => e.event_date)) with
  | error e => rw [htd] at hok; exact absurd hok (by simp)
  | ok ds =>
    rw [htd] at hok
    exact ⟨h1, h2, h3, by omega, h5, ds, rfl, (Except.ok.inj hok).symm⟩

/-- Successful date conversion preserves the length of the column. -/
theorem toDatetime_length (cells : List DateCell) (ds : List (Option Date))
    (h : toDatetime cells = .ok ds) : ds.length = cells.length := by
  induction cells generalizing ds with
  | nil => simp [toDatetime] at h; simp [← h]
  | cons c rest ih =>
    cases c with
    | na =>
      simp [toDatetime] at h
      cases hr : toDatetime rest with
      | error e => rw [hr] at h; simp [Except.map] at h
      | ok l => rw [hr] at h; simp [Except.map] at h; simp [← h, ih l hr]
    | val d =>
      simp [toDatetime] at h
      cases hr : toDatetime rest with
      | error e => rw [hr] at h; simp [Except.map] at h
      | ok l => rw [hr] at h; simp [Except.map] at h; simp [← h, ih l hr]
    | bad s => simp [toDatetime] at h

/-- The per-row update never changes the event fields of the row. -/
theorem alignOne_preserves_base (prices : List (Date × ℚ)) (w : Int)
    (r : AlignedRow) :
    (alignOne prices w r).event_date = r.event_date ∧
    (alignOne prices w r).event_type = r.event_type ∧
    (alignOne prices w r).impact_type = r.impact_type ∧
    (alignOne prices w r).severity = r.severity ∧
    (alignOne prices w r).descr = r.descr := by
  cases hed : r.event_date with
  | none => simp [alignOne, hed]
  | some d =>
    simp only [alignOne, hed]
    split
    · simp [hed]
    · split <;> simp [hed]

/-- The before and after subsets are disjoint pieces of the full window, so
their sizes add up to at most the window size. -/
theorem window_length_ge (prices : List (Date × ℚ)) (d : Date) (w : Int)
    (hw : 0 ≤ w) :
    (beforeSubset prices d w).length + (afterSubset prices d w).length ≤
      (windowSubset prices d w).length := by
  simp only [beforeSubset, afterSubset, windowSubset, List.length_map]
  apply length_filter_add_length_filter_le
  · intro a hpa
    simp only [Bool.and_eq_true, decide_eq_true_eq] at hpa ⊢
    omega
  · intro a hqa
    simp only [Bool.and_eq_true, decide_eq_true_eq] at hqa ⊢
    omega
  · rintro a ⟨hpa, hqa⟩
    simp only [Bool.and_eq_true, decide_eq_true_eq] at hpa hqa
    omega

/-- When a row carries a valid date and both the before and the after subset
are nonempty, `alignOne` fills every derived field with exactly the values
the specification prescribes (the `volatility_window` field holding the
sample variance, the radicand of the prescribed standard deviation). -/
theorem alignOne_filled (prices : List (Date × ℚ)) (w : Int) (r : AlignedRow)
    (d : Date) (hed : r.event_date = some d) (hpct : r.price_change_pct = none)
    (hw : 0 < w) (hb : beforeSubset prices d w ≠ [])
    (ha : afterSubset prices d w ≠ []) :
    (alignOne prices w r).price_before = some (listMean (beforeSubset prices d w)) ∧
    (alignOne prices w r).price_after = some (listMean (afterSubset prices d w)) ∧
    (alignOne prices w r).price_change =
      some (listMean (afterSubset prices d w) - listMean (beforeSubset prices d w)) ∧
    (alignOne prices w r).price_change_pct =
      (if listMean (beforeSubset prices d w) = 0 then none
       else some ((listMean (afterSubset prices d w) - listMean (beforeSubset prices d w))
          / listMean (beforeSubset prices d w) * 100)) ∧
    (alignOne prices w r).max_price_window = some (listMax (windowSubset prices d w)) ∧
    (alignOne prices w r).min_price_window = some (listMin (windowSubset prices d w)) ∧
    (alignOne prices w r).volatility_window = some (sampleVariance (windowSubset prices d w)) := by
  have hcount := window_length_ge prices d w (le_of_lt hw)
  have hbl : 0 < (beforeSubset prices d w).length := List.length_pos.mpr hb
  have hal : 0 < (afterSubset prices d w).length := List.length_pos.mpr ha
  have hwl : 2 ≤ (windowSubset prices d w).length := by omega
  have hvar : sampleVar (windowSubset prices d w) =
      some (sampleVariance (windowSubset prices d w)) := by
    unfold sampleVar sampleVariance
    rw [if_neg (by omega)]
  simp only [alignOne, hed]
  simp only [beforeSubset, afterSubset, windowSubset, List.length_map] at hbl hal hwl hvar ⊢
  rw [if_neg (by omega)]
  rw [if_pos ⟨by simpa using hbl, by simpa using hal⟩]
  refine ⟨rfl, rfl, rfl, ?_, rfl, rfl, ?_⟩
  · rw [hpct]
    split <;> first | rfl | (split <;> simp_all)
  · exact hvar

/-- When the before or the after subset is empty (in particular whenever the
whole window is empty), the per-row update leaves the row untouched. -/
theorem alignOne_skip (prices : List (Date × ℚ)) (w : Int) (r : AlignedRow)
    (d : Date) (hed : r.event_date = some d)
    (hempty : beforeSubset prices d w = [] ∨ afterSubset prices d w = []) :
    alignOne prices w r = r := by
  simp only [beforeSubset, afterSubset] at hempty
  simp only [alignOne, hed]
  split
  · rfl
  · rw [if_neg ?_]
    rintro ⟨hb1, ha1⟩
    rcases hempty with he | he
    · rw [he] at hb1; simp at hb1
    · rw [he] at ha1; simp at ha1

/-- Claim C1: for accepted inputs and an event whose before and after subsets
are both nonempty, the output row carries `price_before` equal to the mean of
the before subset, `price_after` equal to the mean of the after subset,
`price_change` exactly their difference, `price_change_pct` equal to
`price_change / price_before * 100` whenever `price_before` is nonzero, and
`price_change_pct` is null exactly when `price_before` is zero. -/
theorem align_price_change_exact (pdf : PriceDF) (edf : List EventRow)
    (pc : String) (w : Int) (out : List AlignedRow)
    (hok : align_events_with_prices (some pdf) (some edf) pc w = .ok out)
    (i : Nat) (hi : i < out.length) (d : Date)
    (hd : out[i].event_date = some d)
    (hb : beforeSubset (pdf.column pc) d w ≠ [])
    (ha : afterSubset (pdf.column pc) d w ≠ []) :
    out[i].price_before = some (listMean (beforeSubset (pdf.column pc) d w)) ∧
    out[i].price_after = some (listMean (afterSubset (pdf.column pc) d w)) ∧
    out[i].price_change = some (listMean (afterSubset (pdf.column pc) d w) -
      listMean (beforeSubset (pdf.column pc) d w)) ∧
    (listMean (beforeSubset (pdf.column pc) d w) ≠ 0 →
      out[i].price_change_pct = some ((listMean (afterSubset (pdf.column pc) d w) -
        listMean (beforeSubset (pdf.column pc) d w)) /
        listMean (beforeSubset (pdf.column pc) d w) * 100)) ∧
    (out[i].price_change_pct = none ↔
      listMean (beforeSubset (pdf.column pc) d w) = 0) := by
  obtain ⟨-, -, -, hw, -, ds, htd, hout⟩ := align_ok_elim pdf edf pc w out hok
  subst hout
  have hiz : i < (edf.zip ds).length := by simpa using hi
  have hie : i < edf.length := by rw [List.length_zip] at hiz; omega
  have hid : i < ds.length := by rw [List.length_zip] at hiz; omega
  simp only [List.getElem_map, List.getElem_zip] at hd ⊢
  have hpres := alignOne_preserves_base (pdf.column pc) w
    (initAligned (edf[i]) (ds[i]))
  rw [hpres.1] at hd
  have hfill := alignOne_filled (pdf.column pc) w
    (initAligned (edf[i]) (ds[i])) d hd rfl hw hb ha
  refine ⟨hfill.1, hfill.2.1, hfill.2.2.1, ?_, ?_⟩
  · intro hpb
    rw [hfill.2.2.2.1, if_neg hpb]
  · rw [hfill.2.2.2.1]
    constructor
    · intro hnone
      by_contra hpb
      rw [if_neg hpb] at hnone
      simp at hnone
    · intro hpb
      rw [if_pos hpb]

/-- Claim C2: for each event with valid date `d`, the derived statistics come
from the spec subsets: when the before and after subsets (over `[d−W, d)` and
`(d, d+W]`) are both nonempty, `max_price_window`, `min_price_window` and
`volatility_window` are the max, min and sample variance (the square of the
prescribed sample standard deviation) of the full window subset `[d−W, d+W]`;
when either subset is empty all seven derived fields stay null while the
event still appears in the (successful) output. -/
theorem align_window_stats (pdf : PriceDF) (edf : List EventRow)
    (pc : String) (w : Int) (out : List AlignedRow)
    (hok : align_events_with_prices (some pdf) (some edf) pc w = .ok out)
    (i : Nat) (hi : i < out.length) (d : Date)
    (hd : out[i].event_date = some d) :
    (beforeSubset (pdf.column pc) d w ≠ [] →
     afterSubset (pdf.column pc) d w ≠ [] →
      out[i].max_price_window = some (listMax (windowSubset (pdf.column pc) d w)) ∧
      out[i].min_price_window = some (listMin (windowSubset (pdf.column pc) d w)) ∧
      out[i].volatility_window = some (sampleVariance (windowSubset (pdf.column pc) d w))) ∧
    ((beforeSubset (pdf.column pc) d w = [] ∨ afterSubset (pdf.column pc) d w = []) →
      out[i].price_before = none ∧ out[i].price_after = none ∧
      out[i].price_change = none ∧ out[i].price_change_pct = none ∧
      out[i].max_price_window = none ∧ out[i].min_price_window = none ∧
      out[i].volatility_window = none) := by
  obtain ⟨-, -, -, hw, -, ds, htd, hout⟩ := align_ok_elim pdf edf pc w out hok
  subst hout
  have hiz : i < (edf.zip ds).length := by simpa using hi
  have hie : i < edf.length := by rw [List.length_zip] at hiz; omega
  have hid : i < ds.length := by rw [List.length_zip] at hiz; omega
  simp only [List.getElem_map, List.getElem_zip] at hd ⊢
  have hpres := alignOne_preserves_base (pdf.column pc) w
    (initAligned (edf[i]) (ds[i]))
  rw [hpres.1] at hd
  constructor
  · intro hb ha
    have hfill := alignOne_filled (pdf.column pc) w
      (initAligned (edf[i]) (ds[i])) d hd rfl hw hb ha
    exact ⟨hfill.2.2.2.2.1, hfill.2.2.2.2.2.1, hfill.2.2.2.2.2.2⟩
  · intro hempty
    rw [alignOne_skip (pdf.column pc) w _ d hd hempty]
    exact ⟨rfl, rfl, rfl, rfl, rfl, rfl, rfl⟩

/-- Claim C3: for every accepted input the output has exactly one row per
input event, in input order, each output row carrying the event fields of
the input row at the same position. -/
theorem align_preserves_rows (pdf : PriceDF) (edf : List EventRow)
    (pc : String) (w : Int) (out : List AlignedRow)
    (hok : align_events_with_prices (some pdf) (some edf) pc w = .ok out) :
    out.length = edf.length ∧
    ∀ (i : Nat) (hi : i < out.length) (hj : i < edf.length),
      out[i].event_type = edf[i].event_type ∧
      out[i].impact_type = edf[i].impact_type ∧
      out[i].severity = edf[i].severity ∧
      out[i].descr = edf[i].descr := by
  obtain ⟨-, -, -, -, -, ds, htd, hout⟩ := align_ok_elim pdf edf pc w out hok
  have hdl : ds.length = edf.length := by
    simpa using toDatetime_length _ _ htd
  subst hout
  constructor
  · simp [hdl]
  · intro i hi hj
    have hiz : i < (edf.zip ds).length := by simpa using hi
    have hid : i < ds.length := by rw [List.length_zip] at hiz; omega
    simp only [List.getElem_map, List.getElem_zip]
    have hpres := alignOne_preserves_base (pdf.column pc) w
      (initAligned (edf[i]) (ds[i]))
    refine ⟨?_, ?_, ?_, ?_⟩
    · rw [hpres.2.1]; rfl
    · rw [hpres.2.2.1]; rfl
    · rw [hpres.2.2.2.1]; rfl
    · rw [hpres.2.2.2.2]; rfl

/-- Two-point price series used to exercise the alignment theorems. -/
def pdfW1 : PriceDF :=
  { cols := ["price"], datetimeIndex := true,
    rows := [(-1, [1]), (1, [3])] }

/-- One well-dated event inside the price range. -/
def edfW1 : List EventRow :=
  [{ event_date := .val 0, event_type := some "Economic",
     impact_type := some "Negative", severity := some "High", descr := "a" }]

/-- Hand-computed output of the aligner on the one-event input: before mean
1, after mean 3, change 2, percentage 200, window stats 3 / 1 / variance 2. -/
def outW1 : List AlignedRow :=
  [{ event_date := some 0, event_type := some "Economic",
     impact_type := some "Negative", severity := some "High", descr := "a",
     price_before := some 1, price_after := some 3, price_change := some 2,
     price_change_pct := some 200, max_price_window := some 3,
     min_price_window := some 1, volatility_window := some 2 }]

/-- Same price series with a second event whose window holds no prices. -/
def edfW2 : List EventRow :=
  [{ event_date := .val 0, event_type := some "Economic",
     impact_type := some "Negative", severity := some "High", descr := "a" },
   { event_date := .val (-100), event_type := some "Conflict",
     impact_type := some "Positive", severity := some "Low", descr := "b" }]

/-- Hand-computed output of the aligner on the two-event input: the second
event is out of range, so all its derived fields stay null. -/
def outW2 : List AlignedRow :=
  [{ event_date := some 0, event_type := some "Economic",
     impact_type := some "Negative", severity := some "High", descr := "a",
     price_before := some 1, price_after := some 3, price_change := some 2,
     price_change_pct := some 200, max_price_window := some 3,
     min_price_window := some 1, volatility_window := some 2 },
   { event_date := some (-100), event_type := some "Conflict",
     impact_type := some "Positive", severity := some "Low", descr := "b",
     price_before := none, price_after := none, price_change := none,
     price_change_pct := none, max_price_window := none,
     min_price_window := none, volatility_window := none }]

/-- The aligner on the one-event input indeed produces `outW1`. -/
theorem align_outW1 :
    align_events_with_prices (some pdfW1) (some edfW1) "price" 30 = .ok outW1 := by
  norm_num [align_events_with_prices, pdfW1, edfW1, outW1, toDatetime,
    Except.map, alignOne, initAligned, PriceDF.column, listMean, listMax,
    listMin, sampleVar, sampleVariance]

/-- The aligner on the two-event input indeed produces `outW2`. -/
theorem align_outW2 :
    align_events_with_prices (some pdfW1) (some edfW2) "price" 30 = .ok outW2 := by
  norm_num [align_events_with_prices, pdfW1, edfW2, outW2, toDatetime,
    Except.map, alignOne, initAligned, PriceDF.column, listMean, listMax,
    listMin, sampleVar, sampleVariance]

/-- Witness instantiating the C1 theorem on the two-point price series:
before mean 1, after mean 3, change 2, percentage change 200. -/
theorem align_price_change_exact_witness :
    (outW1.get ⟨0, by decide⟩).price_before = some 1 ∧
    (outW1.get ⟨0, by decide⟩).price_after = some 3 ∧
    (outW1.get ⟨0, by decide⟩).price_change = some 2 ∧
    (outW1.get ⟨0, by decide⟩).price_change_pct = some 200 := by
  have h := align_price_change_exact pdfW1 edfW1 "price" 30 outW1 align_outW1
    0 (by decide) 0 (by decide) (by decide) (by decide)
  refine ⟨h.1.trans ?_, h.2.1.trans ?_, h.2.2.1.trans ?_,
    (h.2.2.2.1 ?_).trans ?_⟩ <;>
    norm_num [pdfW1, PriceDF.column, beforeSubset, afterSubset, listMean]

/-- Witness instantiating the C2 theorem: the aligned event gets the window
max, min and sample variance; the out-of-range event keeps every derived
field null while staying in the output. -/
theorem align_window_stats_witness :
    (outW2.get ⟨0, by decide⟩).max_price_window = some 3 ∧
    (outW2.get ⟨0, by decide⟩).min_price_window = some 1 ∧
    (outW2.get ⟨0, by decide⟩).volatility_window = some 2 ∧
    (outW2.get ⟨1, by decide⟩).price_change = none ∧
    (outW2.get ⟨1, by decide⟩).volatility_window = none := by
  have h0 := align_window_stats pdfW1 edfW2 "price" 30 outW2 align_outW2
    0 (by decide) 0 (by decide)
  have h1 := align_window_stats pdfW1 edfW2 "price" 30 outW2 align_outW2
    1 (by decide) (-100) (by decide)
  have hfill := h0.1 (by decide) (by decide)
  have hskip := h1.2 (Or.inl (by decide))
  refine ⟨hfill.1.trans ?_, hfill.2.1.trans ?_, hfill.2.2.trans ?_,
    hskip.2.2.1, hskip.2.2.2.2.2.2⟩ <;>
    norm_num [pdfW1, PriceDF.column, windowSubset, listMax, listMin,
      sampleVariance, listMean]

/-- Witness instantiating the C3 theorem: two events in, two rows out, in
order, with the event fields preserved. -/
theorem align_preserves_rows_witness :
    outW2.length = edfW2.length ∧
    (outW2.get ⟨0, by decide⟩).event_type = some "Economic" ∧
    (outW2.get ⟨1, by decide⟩).event_type = some "Conflict" := by
  have h := align_preserves_rows pdfW1 edfW2 "price" 30 outW2 align_outW2
  exact ⟨h.1, ((h.2 0 (by decide) (by decide)).1).trans (by decide),
    ((h.2 1 (by decide) (by decide)).1).trans (by decide)⟩

/-- One event whose date cell is an unparseable string. -/
def edfBad : List EventRow :=
  [{ event_date := .bad "notadate", event_type := some "Economic",
     impact_type := some "Negative", severity := some "High", descr := "a" }]

/-- One event whose date cell is missing (`NaT`). -/
def edfNa : List EventRow :=
  [{ event_date := .na, event_type := some "Economic",
     impact_type := some "Negative", severity := some "High", descr := "a" }]

/-- Counterexample to claim C4 as stated: an event with an unparseable date
does not merely skip that row — the whole-column `pd.to_datetime` conversion
fails and the whole call raises `EventIntegrationError`, so the event never
appears in any output. -/
theorem align_unparseable_date_fails :
    align_events_with_prices (some pdfW1) (some edfBad) "price" 30 =
      .error (.eventIntegrationError
        "Failed to convert event dates to datetime: notadate") := by
  decide

/-- Claim C4 (amended): the aligner raises on every structural problem —
`None` or empty inputs, a missing price column, a non-positive window, a
non-datetime index — and also raises when any event date is unparseable
(the whole-column conversion fails); an event whose date is null is instead
skipped row-locally: the call succeeds and that row keeps the event fields
with every derived field null. -/
theorem align_error_handling (pdf : PriceDF) (edf : List EventRow)
    (pc : String) (w : Int) :
    (∀ e, align_events_with_prices none e pc w =
      .error (.eventIntegrationError "Price DataFrame is None or empty")) ∧
    (pdf.rows = [] → align_events_with_prices (some pdf) (some edf) pc w =
      .error (.eventIntegrationError "Price DataFrame is None or empty")) ∧
    (pdf.rows ≠ [] → align_events_with_prices (some pdf) none pc w =
      .error (.eventIntegrationError "Event DataFrame is None or empty")) ∧
    (pdf.rows ≠ [] → edf = [] →
      align_events_with_prices (some pdf) (some edf) pc w =
        .error (.eventIntegrationError "Event DataFrame is None or empty")) ∧
    (pdf.rows ≠ [] → edf ≠ [] → pc ∉ pdf.cols →
      align_events_with_prices (some pdf) (some edf) pc w =
        .error (.eventIntegrationError
          ("Price column \x27" ++ pc ++ "\x27 not found in price_df"))) ∧
    (pdf.rows ≠ [] → edf ≠ [] → pc ∈ pdf.cols → w ≤ 0 →
      align_events_with_prices (some pdf) (some edf) pc w =
        .error (.valueError "window_days must be positive")) ∧
    (pdf.rows ≠ [] → edf ≠ [] → pc ∈ pdf.cols → 0 < w →
      pdf.datetimeIndex = false →
      align_events_with_prices (some pdf) (some edf) pc w =
        .error (.eventIntegrationError "Price DataFrame must have DatetimeIndex")) ∧
    (pdf.rows ≠ [] → edf ≠ [] → pc ∈ pdf.cols → 0 < w →
      pdf.datetimeIndex = true →
      ∀ s, toDatetime (edf.map (fun e => e.event_date)) = .error s →
        align_events_with_prices (some pdf) (some edf) pc w =
          .error (.eventIntegrationError
            ("Failed to convert event dates to datetime: " ++ s))) ∧
    (pdf.rows ≠ [] → edf ≠ [] → pc ∈ pdf.cols → 0 < w →
      pdf.datetimeIndex = true →
      ∀ ds, toDatetime (edf.map (fun e => e.event_date)) = .ok ds →
        align_events_with_prices (some pdf) (some edf) pc w =
          .ok ((edf.zip ds).map
            (fun p => alignOne (pdf.column pc) w (initAligned p.1 p.2))) ∧
        ∀ (i : Nat) (hi : i < edf.length) (hd : i < ds.length), ds[i] = none →
          ((edf.zip ds).map
            (fun p => alignOne (pdf.column pc) w (initAligned p.1 p.2))).get
              ⟨i, by rw [List.length_map, List.length_zip]; omega⟩ =
            initAligned edf[i] none) := by
  refine ⟨fun e => rfl, ?_, ?_, ?_, ?_, ?_, ?_, ?_, ?_⟩
  · intro h1
    simp [align_events_with_prices, h1]
  · intro h1
    simp [align_events_with_prices, h1]
  · intro h1 h2
    simp [align_events_with_prices, h1, h2]
  · intro h1 h2 h3
    simp [align_events_with_prices, h1, h2, h3]
  · intro h1 h2 h3 h4
    simp [align_events_with_prices, h1, h2, h3, h4]
  · intro h1 h2 h3 h4 h5
    simp [align_events_with_prices, h1, h2, h3, h4, h5, Int.not_le.mpr h4]
  · intro h1 h2 h3 h4 h5 s hs
    simp [align_events_with_prices, h1, h2, h3, h5, Int.not_le.mpr h4, hs]
  · intro h1 h2 h3 h4 h5 ds hds
    constructor
    · simp [align_events_with_prices, h1, h2, h3, h5, Int.not_le.mpr h4, hds]
    · intro i hi hd hnone
      have hiz : i < (edf.zip ds).length := by
        rw [List.length_zip]; omega
      simp only [List.get_eq_getElem, List.getElem_map, List.getElem_zip, hnone]
      simp [alignOne, initAligned]

/-- Witness instantiating the amended C4 theorem: an empty price frame, a
missing column, a zero window and a null-date row each behave as stated. -/
theorem align_error_handling_witness :
    align_events_with_prices (some ⟨["price"], true, []⟩) (some edfW1) "price" 30 =
      .error (.eventIntegrationError "Price DataFrame is None or empty") ∧
    align_events_with_prices (some pdfW1) (some edfW1) "cost" 30 =
      .error (.eventIntegrationError
        "Price column \x27cost\x27 not found in price_df") ∧
    align_events_with_prices (some pdfW1) (some edfW1) "price" 0 =
      .error (.valueError "window_days must be positive") ∧
    align_events_with_prices (some pdfW1) (some edfNa) "price" 30 =
      .ok [initAligned (edfNa.get ⟨0, by decide⟩) none] := by
  refine ⟨(align_error_handling ⟨["price"], true, []⟩ edfW1 "price" 30).2.1 rfl,
    (align_error_handling pdfW1 edfW1 "cost" 30).2.2.2.2.1
      (by decide) (by decide) (by decide),
    (align_error_handling pdfW1 edfW1 "price" 0).2.2.2.2.2.1
      (by decide) (by decide) (by decide) (by decide),
    ?_⟩
  have h := ((align_error_handling pdfW1 edfNa "price" 30).2.2.2.2.2.2.2.2
    (by decide) (by decide) (by decide) (by decide) rfl [none] (by decide)).1
  exact h.trans (by decide)

/-- Embedding of a backend DataFrame as filtered by
`apply_date_filter_to_dataframe` (`src/backend/utils.py` lines 162-204): a
positional (range-) indexed table whose first component is the datetime
index value and whose cells (positional on `cols`) are date-valued, since
the filter only ever compares them with timestamps. -/
structure FilterDF where
  cols : List String
  rows : List (Date × List Date)
deriving DecidableEq, Repr

/-- Embedding of `apply_date_filter_to_dataframe`.  The source captures
`date_series` from the unfiltered copy and reuses it for both masks:
* for `date_column = "index"` the masks are positional arrays, so when the
  start filter dropped rows and an end bound is also given, pandas raises a
  length-mismatch `ValueError` (modelled by the length guard below); when
  lengths match, positional application equals filtering by the row's own
  index value;
* for a named column the masks are label-aligned boolean Series, which on a
  unique (range) index is the same as filtering each row by its own cell. -/
def apply_date_filter_to_dataframe (df : FilterDF) (date_column : String)
    (start_date end_date : Option Date) : Except String FilterDF :=
  if date_column = "index" then
    let rows1 := match start_date with
      | none => df.rows
      | some s => df.rows.filter (fun r => decide (s ≤ r.1))
    match end_date with
    | none => .ok { df with rows := rows1 }
    | some e =>
      if rows1.length = df.rows.length then
        .ok { df with rows := rows1.filter (fun r => decide (r.1 ≤ e)) }
      else .error "Item wrong length"
  else if date_column ∈ df.cols then
    let j := df.cols.indexOf date_column
    let rows1 := match start_date with
      | none => df.rows
      | some s => df.rows.filter (fun r => decide (s ≤ r.2.getD j 0))
    let rows2 := match end_date with
      | none => rows1
      | some e => rows1.filter (fun r => decide (r.2.getD j 0 ≤ e))
    .ok { df with rows := rows2 }
  else .error ("Date column \x27" ++ date_column ++ "\x27 not found in dataframe")

/-- A filter whose output is as long as its input kept every row. -/
theorem filter_eq_self_of_length {α : Type} (l : List α) (p : α → Bool)
    (h : (l.filter p).length = l.length) : l.filter p = l := by
  induction l with
  | nil => rfl
  | cons x xs ih =>
    by_cases hx : p x = true
    · simp only [List.filter_cons, hx, if_true, List.length_cons] at h ⊢
      rw [ih (by omega)]
    · simp only [List.filter_cons, hx, Bool.false_eq_true, if_false,
        List.length_cons] at h
      have := List.length_filter_le p xs
      omega

/-- Filtering a list every element of which satisfies the predicate keeps
it unchanged. -/
theorem filter_of_all {α : Type} (l : List α) (p : α → Bool)
    (h : ∀ a ∈ l, p a = true) : l.filter p = l :=
  List.filter_eq_self.mpr h

/-- Filtering twice by the same predicate is filtering once. -/
theorem filter_idem {α : Type} (l : List α) (p : α → Bool) :
    (l.filter p).filter p = l.filter p :=
  filter_of_all _ _ (fun a ha => List.of_mem_filter ha)

/-- Re-filtering by the first predicate after a second filter changes
nothing. -/
theorem filter_inner_absorb {α : Type} (l : List α) (p q : α → Bool) :
    ((l.filter p).filter q).filter p = (l.filter p).filter q :=
  filter_of_all _ _ (fun a ha => List.of_mem_filter (List.mem_of_mem_filter ha))

/-- Claim C5: date-range filtering is idempotent — whenever one application
of `apply_date_filter_to_dataframe` succeeds, applying it again with the
same column and bounds to its result returns that result unchanged. -/
theorem apply_date_filter_idempotent (df : FilterDF) (c : String)
    (sd ed : Option Date) (out : FilterDF)
    (h : apply_date_filter_to_dataframe df c sd ed = .ok out) :
    apply_date_filter_to_dataframe out c sd ed = .ok out := by
  by_cases hc : c = "index"
  · subst hc
    cases sd with
    | none =>
      cases ed with
      | none =>
        simp [apply_date_filter_to_dataframe] at h ⊢
      | some e =>
        simp [apply_date_filter_to_dataframe] at h ⊢
        rw [← h]
        simp [filter_idem]
    | some s =>
      cases ed with
      | none =>
        simp only [apply_date_filter_to_dataframe, if_pos rfl, if_true,
          Except.ok.injEq] at h ⊢
        rw [← h]
        simp only [FilterDF.mk.injEq, true_and]
        exact filter_idem _ _
      | some e =>
        simp only [apply_date_filter_to_dataframe, if_pos rfl, if_true] at h ⊢
        by_cases hlen : (df.rows.filter (fun r => decide (s ≤ r.1))).length =
            df.rows.length
        swap
        · rw [if_neg hlen] at h
          exact absurd h (by simp)
        rw [if_pos hlen] at h
        simp only [Except.ok.injEq] at h
        have hfp : df.rows.filter (fun r => decide (s ≤ r.1)) = df.rows :=
          filter_eq_self_of_length _ _ hlen
        have hout : out.rows = (df.rows.filter (fun r => decide (s ≤ r.1))).filter
            (fun r => decide (r.1 ≤ e)) := by rw [← h]
        have hkeep : out.rows.filter (fun r => decide (s ≤ r.1)) = out.rows := by
          rw [hout]
          exact filter_inner_absorb _ _ _
        rw [hkeep, if_pos rfl, ← h]
        simp only [Except.ok.injEq, FilterDF.mk.injEq, true_and]
        exact filter_idem _ _
  · simp only [apply_date_filter_to_dataframe, if_neg hc] at h ⊢
    by_cases hmem : c ∈ df.cols
    swap
    · rw [if_neg hmem] at h
      exact absurd h (by simp)
    rw [if_pos hmem] at h
    simp only [Except.ok.injEq] at h
    have hcols : out.cols = df.cols := by rw [← h]
    rw [if_pos (by rw [hcols]; exact hmem)]
    cases sd with
    | none =>
      cases ed with
      | none =>
        rw [← h]
      | some e =>
        rw [← h]
        simp [hcols, filter_idem]
    | some s =>
      cases ed with
      | none =>
        rw [← h]
        simp [hcols, filter_idem]
      | some e =>
        rw [← h]
        simp only [Except.ok.injEq, FilterDF.mk.injEq, true_and]
        rw [filter_inner_absorb df.rows
          (fun r => decide (s ≤ r.2.getD (List.indexOf c df.cols) 0))
          (fun r => decide (r.2.getD (List.indexOf c df.cols) 0 ≤ e))]
        exact filter_idem _ _

/-- Witness instantiating the C5 theorem on a three-row frame filtered by
its `event_date` column to `[1, 4]`. -/
theorem apply_date_filter_idempotent_witness :
    apply_date_filter_to_dataframe (FilterDF.mk ["event_date"] [(1, [2])])
      "event_date" (some 1) (some 4) = .ok (FilterDF.mk ["event_date"] [(1, [2])]) :=
  apply_date_filter_idempotent (FilterDF.mk ["event_date"] [(0, [0]), (1, [2]), (2, [5])])
    "event_date" (some 1) (some 4) (FilterDF.mk ["event_date"] [(1, [2])]) (by decide)

/-- Embedding of the time-series DataFrame handled by `preprocess_data`
(`src/src/data_loader.py` lines 210-262): a datetime index plus columns of
possibly missing rational cells, all of the index length. -/
structure TSFrame where
  index : List Date
  cols : List (List (Option ℚ))
deriving DecidableEq, Repr

/-- Embedding of `Series.ffill` on one column: each missing cell takes the
last preceding valid value, carried in the accumulator. -/
def ffillCol : Option ℚ → List (Option ℚ) → List (Option ℚ)
  | _, [] => []
  | last, none :: rest => last :: ffillCol last rest
  | _, some x :: rest => some x :: ffillCol (some x) rest

/-- Embedding of `Series.bfill` on one column: forward fill on the reversed
column. -/
def bfillCol (col : List (Option ℚ)) : List (Option ℚ) :=
  (ffillCol none col.reverse).reverse

/-- The latest valid observation at a position at most `i`, as (date, value). -/
def prevValid (idx : List Date) (col : List (Option ℚ)) (i : Nat) :
    Option (Date × ℚ) :=
  (List.range (i + 1)).reverse.findSome?
    (fun j => (col.getD j none).map (fun v => (idx.getD j 0, v)))

/-- The earliest valid observation at a position strictly after `i`. -/
def nextValid (idx : List Date) (col : List (Option ℚ)) (i : Nat) :
    Option (Date × ℚ) :=
  (List.range' (i + 1) (col.length - i - 1)).findSome?
    (fun j => (col.getD j none).map (fun v => (idx.getD j 0, v)))

/-- Embedding of `Series.interpolate(method="time")` at one cell: a missing
cell between two valid observations is filled time-weighted linearly; a
missing cell after the last valid observation takes that value (pandas fills
forward); a missing cell before the first valid observation stays missing. -/
def interpCell (idx : List Date) (col : List (Option ℚ)) (i : Nat) : Option ℚ :=
  match col.getD i none with
  | some v => some v
  | none =>
    match prevValid idx col i, nextValid idx col i with
    | some (tj, vj), some (tk, vk) =>
      some (vj + (vk - vj) * (((idx.getD i 0) - tj : ℤ) : ℚ) / ((tk - tj : ℤ) : ℚ))
    | some (_, vj), none => some vj
    | none, _ => none

/-- Embedding of `Series.interpolate(method="time")` on one column. -/
def interpolateCol (idx : List Date) (col : List (Option ℚ)) : List (Option ℚ) :=
  (List.range col.length).map (fun i => interpCell idx col i)

/-- Positions kept by `DataFrame.dropna`: those where every column holds a
value. -/
def dropnaMask (cols : List (List (Option ℚ))) (n : Nat) : List Bool :=
  (List.range n).map (fun i => cols.all (fun col => (col.getD i none).isSome))

/-- Keeping the entries of a list selected by a positional mask. -/
def applyMask {α : Type} (mask : List Bool) (l : List α) : List α :=
  ((l.zip mask).filter (fun p => p.2)).map Prod.fst

/-- The two exception classes raised by `preprocess_data`. -/
inductive LoadError where
  | valueError (msg : String) : LoadError
  | dataValidationError (msg : String) : LoadError
deriving DecidableEq, Repr

/-- Embedding of the `if`/`elif` policy dispatch of `preprocess_data`
(source lines 245-253). -/
def applyMissing (df : TSFrame) (method : String) : TSFrame :=
  if method = "forward_fill" then
    { df with cols := df.cols.map (ffillCol none) }
  else if method = "backward_fill" then
    { df with cols := df.cols.map bfillCol }
  else if method = "interpolate" then
    { df with cols := df.cols.map (interpolateCol df.index) }
  else
    { index := applyMask (dropnaMask df.cols df.index.length) df.index,
      cols := df.cols.map (applyMask (dropnaMask df.cols df.index.length)) }

/-- Embedding of `preprocess_data` (source lines 210-262).  The initial
emptiness check raises a `ValueError` that the function re-raises as
`DataValidationError` with the same message; the final emptiness check
raises inside the `try`, so its message gets the generic preprocessing
wrapper prefix. -/
def preprocess_data (df : Option TSFrame) (handle_missing : String) :
    Except LoadError TSFrame :=
  match df with
  | none => .error (.dataValidationError "Input DataFrame is None")
  | some df =>
    if df.index.isEmpty then
      .error (.dataValidationError "Input DataFrame is empty")
    else if handle_missing ∉ ["forward_fill", "backward_fill", "interpolate", "drop"] then
      .error (.valueError ("Invalid handle_missing method: " ++ handle_missing ++
        ". Must be one of [forward_fill, backward_fill, interpolate, drop]"))
    else
      let processed := applyMissing df handle_missing
      if processed.index.isEmpty then
        .error (.dataValidationError
          "Error during preprocessing: DataFrame is empty after preprocessing")
      else .ok processed

/-- Claim C6: on a non-empty frame, `preprocess_data` raises a `ValueError`
for every policy name outside the four valid ones (never silently
defaulting); for a valid policy it raises rather than returning when the
processed result is empty, and otherwise returns exactly the non-empty
processed frame.  The three fill policies moreover keep the index, so only
`drop` can ever reach the emptiness failure. -/
theorem preprocess_policy (df : TSFrame) (policy : String)
    (hne : df.index ≠ []) :
    (policy ∉ ["forward_fill", "backward_fill", "interpolate", "drop"] →
      preprocess_data (some df) policy =
        .error (.valueError ("Invalid handle_missing method: " ++ policy ++
          ". Must be one of [forward_fill, backward_fill, interpolate, drop]"))) ∧
    (policy ∈ ["forward_fill", "backward_fill", "interpolate", "drop"] →
      ((applyMissing df policy).index = [] →
        preprocess_data (some df) policy =
          .error (.dataValidationError
            "Error during preprocessing: DataFrame is empty after preprocessing")) ∧
      ((applyMissing df policy).index ≠ [] →
        preprocess_data (some df) policy = .ok (applyMissing df policy))) ∧
    (policy = "forward_fill" ∨ policy = "backward_fill" ∨ policy = "interpolate" →
      (applyMissing df policy).index = df.index) := by
  refine ⟨?_, ?_, ?_⟩
  · intro hpol
    simp [preprocess_data, hne, hpol]
  · intro hpol
    constructor
    · intro hempty
      simp [preprocess_data, hne, hpol, hempty]
    · intro hne2
      simp [preprocess_data, hne, hpol, hne2]
  · rintro (h | h | h) <;> subst h <;> simp [applyMissing]

/-- Witness instantiating the C6 theorem: an unknown policy fails with a
`ValueError`, forward fill returns the filled frame, and dropping the rows
of an all-missing column fails on emptiness. -/
theorem preprocess_policy_witness :
    preprocess_data (some (TSFrame.mk [0, 1] [[some 1, none]])) "mean" =
      .error (.valueError ("Invalid handle_missing method: mean" ++
        ". Must be one of [forward_fill, backward_fill, interpolate, drop]")) ∧
    preprocess_data (some (TSFrame.mk [0, 1] [[some 1, none]])) "forward_fill" =
      .ok (TSFrame.mk [0, 1] [[some 1, some 1]]) ∧
    preprocess_data (some (TSFrame.mk [0, 1] [[none, none]])) "drop" =
      .error (.dataValidationError
        "Error during preprocessing: DataFrame is empty after preprocessing") := by
  refine ⟨?_, ?_, ?_⟩
  · exact ((preprocess_policy (TSFrame.mk [0, 1] [[some 1, none]]) "mean"
      (by decide)).1 (by decide)).trans (by decide)
  · exact (((preprocess_policy (TSFrame.mk [0, 1] [[some 1, none]]) "forward_fill"
      (by decide)).2.1 (by decide)).2 (by decide)).trans (by decide)
  · exact ((preprocess_policy (TSFrame.mk [0, 1] [[none, none]]) "drop"
      (by decide)).2.1 (by decide)).1 (by decide)

/-- First-occurrence distinct traversal behind `uniqueVals`, carrying the
set of values already listed. -/
def uniqueAux {α : Type} [DecidableEq α] : List α → List α → List α
  | _, [] => []
  | seen, x :: rest =>
    if x ∈ seen then uniqueAux seen rest
    else x :: uniqueAux (x :: seen) rest

/-- First-occurrence distinct values of a column, the way `Series.unique`
lists them — NaN (here `none`) included. -/
def uniqueVals {α : Type} [DecidableEq α] (l : List α) : List α :=
  uniqueAux [] l

/-- Every value listed by the distinct traversal occurs in the column. -/
theorem uniqueAux_subset {α : Type} [DecidableEq α] :
    ∀ (l seen : List α), ∀ v ∈ uniqueAux seen l, v ∈ l := by
  intro l
  induction l with
  | nil => intro seen v hv; simp [uniqueAux] at hv
  | cons x rest ih =>
    intro seen v hv
    rw [uniqueAux] at hv
    by_cases hx : x ∈ seen
    · rw [if_pos hx] at hv
      exact List.mem_cons_of_mem _ (ih _ v hv)
    · rw [if_neg hx] at hv
      rcases List.mem_cons.mp hv with rfl | hv2
      · exact List.mem_cons_self _ _
      · exact List.mem_cons_of_mem _ (ih _ v hv2)

/-- Every value listed by `uniqueVals` occurs in the column. -/
theorem uniqueVals_subset {α : Type} [DecidableEq α] (l : List α) :
    ∀ v ∈ uniqueVals l, v ∈ l :=
  uniqueAux_subset l []

/-- Embedding of the pandas `==` comparison on a possibly-missing category
cell: NaN compares unequal to everything, itself included. -/
def pandasEq : Option String → Option String → Bool
  | some a, some b => decide (a = b)
  | _, _ => false

/-- Embedding of how an f-string renders a possibly-missing category value:
NaN prints as `nan`. -/
def catLabel (v : Option String) : String := v.getD "nan"

/-- Mean with pandas `skipna` semantics: NaN entries are dropped, and the
mean of no observations is NaN. -/
def meanOpt (l : List (Option ℚ)) : Option ℚ :=
  let vals := l.filterMap id
  if vals.isEmpty then none else some (listMean vals)

/-- Median with pandas `skipna` semantics. -/
def medianOpt (l : List (Option ℚ)) : Option ℚ :=
  let vals := (l.filterMap id).mergeSort (fun a b => decide (a ≤ b))
  if vals.isEmpty then none
  else if vals.length % 2 = 1 then some (vals.getD (vals.length / 2) 0)
  else some ((vals.getD (vals.length / 2 - 1) 0 + vals.getD (vals.length / 2) 0) / 2)

/-- Sample standard deviation radicand with pandas `skipna` semantics. -/
def stdOpt (l : List (Option ℚ)) : Option ℚ := sampleVar (l.filterMap id)

/-- Maximum with pandas `skipna` semantics. -/
def maxOpt (l : List (Option ℚ)) : Option ℚ :=
  let vals := l.filterMap id
  if vals.isEmpty then none else some (listMax vals)

/-- Minimum with pandas `skipna` semantics. -/
def minOpt (l : List (Option ℚ)) : Option ℚ :=
  let vals := l.filterMap id
  if vals.isEmpty then none else some (listMin vals)

/-- One row of the summary table built by
`calculate_event_impact_statistics`. -/
structure StatRow where
  category : String
  count : Nat
  mean_price_change_pct : Option ℚ
  median_price_change_pct : Option ℚ
  std_price_change_pct : Option ℚ
  max_price_change_pct : Option ℚ
  min_price_change_pct : Option ℚ
deriving DecidableEq, Repr

/-- The statistics dictionary built for one category over its member rows
(source lines 207-215 and 222-230). -/
def mkStats (category : String) (rows : List AlignedRow) : StatRow :=
  { category := category, count := rows.length,
    mean_price_change_pct := meanOpt (rows.map (fun r => r.price_change_pct)),
    median_price_change_pct := medianOpt (rows.map (fun r => r.price_change_pct)),
    std_price_change_pct := stdOpt (rows.map (fun r => r.price_change_pct)),
    max_price_change_pct := maxOpt (rows.map (fun r => r.price_change_pct)),
    min_price_change_pct := minOpt (rows.map (fun r => r.price_change_pct)) }

/-- Embedding of `calculate_event_impact_statistics` (source lines 189-248)
on a table that carries the `price_change_pct`, `event_type` and
`impact_type` columns (they are structural fields of `AlignedRow`, so the
three column-presence checks of the source always pass). -/
def calculate_event_impact_statistics (event_df : List AlignedRow) : List StatRow :=
  mkStats "Overall" event_df ::
    ((uniqueVals (event_df.map (fun r => r.event_type))).map
      (fun v => mkStats ("Type: " ++ catLabel v)
        (event_df.filter (fun r => pandasEq r.event_type v))) ++
     (uniqueVals (event_df.map (fun r => r.impact_type))).map
      (fun v => mkStats ("Impact: " ++ catLabel v)
        (event_df.filter (fun r => pandasEq r.impact_type v))))

/-- An aligned event whose `event_type` is NaN. -/
def rowNanType : AlignedRow :=
  { event_date := some 0, event_type := none, impact_type := some "Negative",
    severity := some "High", descr := "a", price_before := none,
    price_after := none, price_change := none, price_change_pct := some 1,
    max_price_window := none, min_price_window := none,
    volatility_window := none }

/-- Counterexample to claim C7 as stated: with one event whose `event_type`
is NaN, `Series.unique` still lists NaN, but the pandas `==` filter matches
nothing, so the summary emits a `Type: nan` row with count 0 and null
statistics — a zero-member category row is emitted, not omitted. -/
theorem impact_stats_emits_zero_count_row :
    ((calculate_event_impact_statistics [rowNanType]).get ⟨1, by decide⟩).category =
      "Type: nan" ∧
    ((calculate_event_impact_statistics [rowNanType]).get ⟨1, by decide⟩).count = 0 := by
  constructor <;> rfl

/-- Claim C7 (amended): on an aligned collection whose `event_type` and
`impact_type` values are all non-null, the summary is one `Overall` row
(counting every row) followed by one row per distinct `event_type` and one
per distinct `impact_type`, each category row counting its members —
at least 1, so no zero-member category row is emitted. -/
theorem impact_stats_rows (rows : List AlignedRow)
    (ht : ∀ r ∈ rows, r.event_type ≠ none)
    (hi : ∀ r ∈ rows, r.impact_type ≠ none) :
    (calculate_event_impact_statistics rows).head? =
      some (mkStats "Overall" rows) ∧
    (mkStats "Overall" rows).count = rows.length ∧
    (calculate_event_impact_statistics rows).length =
      1 + (uniqueVals (rows.map (fun r => r.event_type))).length +
        (uniqueVals (rows.map (fun r => r.impact_type))).length ∧
    ∀ (i : Nat) (hilt : i < (calculate_event_impact_statistics rows).length),
      1 ≤ i → 1 ≤ ((calculate_event_impact_statistics rows).get ⟨i, hilt⟩).count := by
  refine ⟨rfl, rfl, ?_, ?_⟩
  · simp only [calculate_event_impact_statistics, List.length_cons,
      List.length_append, List.length_map]
    omega
  · intro i hilt h1
    obtain ⟨j, rfl⟩ : ∃ j, i = j + 1 := ⟨i - 1, by omega⟩
    have hmem : ((calculate_event_impact_statistics rows).get ⟨j + 1, hilt⟩) ∈
        ((uniqueVals (rows.map (fun r => r.event_type))).map
          (fun v => mkStats ("Type: " ++ catLabel v)
            (rows.filter (fun r => pandasEq r.event_type v))) ++
         (uniqueVals (rows.map (fun r => r.impact_type))).map
          (fun v => mkStats ("Impact: " ++ catLabel v)
            (rows.filter (fun r => pandasEq r.impact_type v)))) := by
      have : (calculate_event_impact_statistics rows).get ⟨j + 1, hilt⟩ =
          ((uniqueVals (rows.map (fun r => r.event_type))).map
            (fun v => mkStats ("Type: " ++ catLabel v)
              (rows.filter (fun r => pandasEq r.event_type v))) ++
           (uniqueVals (rows.map (fun r => r.impact_type))).map
            (fun v => mkStats ("Impact: " ++ catLabel v)
              (rows.filter (fun r => pandasEq r.impact_type v)))).get
            ⟨j, by
              simp only [calculate_event_impact_statistics, List.length_cons] at hilt
              omega⟩ := rfl
      rw [this]
      exact List.get_mem _ _ _
    rcases List.mem_append.mp hmem with hmt | hmi
    · obtain ⟨v, hv, heq⟩ := List.mem_map.mp hmt
      obtain ⟨r, hr, hre⟩ := List.mem_map.mp (uniqueVals_subset _ v hv)
      obtain ⟨a, ha⟩ := Option.ne_none_iff_exists.mp (ht r hr)
      rw [← heq]
      simp only [mkStats]
      have hrf : r ∈ rows.filter (fun r => pandasEq r.event_type v) := by
        apply List.mem_filter.mpr
        refine ⟨hr, ?_⟩
        rw [← hre, ← ha]
        simp [pandasEq]
      have := List.length_pos.mpr (List.ne_nil_of_mem hrf)
      omega
    · obtain ⟨v, hv, heq⟩ := List.mem_map.mp hmi
      obtain ⟨r, hr, hre⟩ := List.mem_map.mp (uniqueVals_subset _ v hv)
      obtain ⟨a, ha⟩ := Option.ne_none_iff_exists.mp (hi r hr)
      rw [← heq]
      simp only [mkStats]
      have hrf : r ∈ rows.filter (fun r => pandasEq r.impact_type v) := by
        apply List.mem_filter.mpr
        refine ⟨hr, ?_⟩
        rw [← hre, ← ha]
        simp [pandasEq]
      have := List.length_pos.mpr (List.ne_nil_of_mem hrf)
      omega

/-- An aligned event with non-null category values. -/
def rowW7 : AlignedRow :=
  { event_date := some 0, event_type := some "Economic",
    impact_type := some "Negative", severity := some "High", descr := "a",
    price_before := none, price_after := none, price_change := none,
    price_change_pct := some 1, max_price_window := none,
    min_price_window := none, volatility_window := none }

/-- Witness instantiating the amended C7 theorem on a one-event collection
with non-null categories: three rows come out and both category rows count
their single member. -/
theorem impact_stats_rows_witness :
    (calculate_event_impact_statistics [rowW7]).length = 3 ∧
    1 ≤ ((calculate_event_impact_statistics [rowW7]).get ⟨1, by decide⟩).count ∧
    1 ≤ ((calculate_event_impact_statistics [rowW7]).get ⟨2, by decide⟩).count := by
  have h := impact_stats_rows [rowW7] (by decide) (by decide)
  exact ⟨h.2.2.1.trans (by decide), h.2.2.2 1 (by decide) (by decide),
    h.2.2.2 2 (by decide) (by decide)⟩

/-- Result object of `test_stationarity`: the two per-test stationarity
verdicts (absent when the library call raised, which the source catches and
records as a missing result) and the combined conclusion string. -/
structure StationarityResult where
  adf_is_stationary : Option Bool
  kpss_is_stationary : Option Bool
  conclusion : String
deriving DecidableEq, Repr

/-- Embedding of `test_stationarity` (`src/src/eda.py` lines 180-261).  The
p-values of the two statsmodels calls are oracle parameters: `none` models
the external call raising.  ADF finds stationarity when its p-value is below
`alpha`; KPSS when its p-value is above `alpha`. -/
def test_stationarity (series : Option (List (Option ℚ))) (alpha : ℚ)
    (adf_p kpss_p : Option ℚ) : Except String StationarityResult :=
  match series with
  | none => .error "Series is None"
  | some s =>
    if ¬(0 < alpha ∧ alpha < 1) then
      .error "Alpha must be between 0 and 1"
    else
      let clean := s.filterMap id
      if clean.length < 10 then
        .error "Insufficient data for stationarity testing"
      else
        let adf := adf_p.map (fun p => decide (p < alpha))
        let kpss := kpss_p.map (fun p => decide (alpha < p))
        .ok { adf_is_stationary := adf
              kpss_is_stationary := kpss
              conclusion :=
                (match adf, kpss with
                | some a, some k =>
                  if a && k then "Stationary"
                  else if !a && !k then "Non-stationary"
                  else "Inconclusive - conflicting results"
                | _, _ => "Unable to determine") }

/-- Claim C8: on a series with at least 10 non-null observations and a valid
significance level, `test_stationarity` succeeds and combines the two test
verdicts by the 2x2 truth table into exactly one of the four conclusions:
Stationary iff both find stationarity, Non-stationary iff both find
non-stationarity, the inconclusive verdict iff they disagree, and Unable to
determine iff at least one test produced no result. -/
theorem stationarity_conclusion (s : List (Option ℚ)) (alpha : ℚ)
    (adf_p kpss_p : Option ℚ) (ha1 : 0 < alpha) (ha2 : alpha < 1)
    (hn : 10 ≤ (s.filterMap id).length) :
    ∃ r, test_stationarity (some s) alpha adf_p kpss_p = .ok r ∧
      r.adf_is_stationary = adf_p.map (fun p => decide (p < alpha)) ∧
      r.kpss_is_stationary = kpss_p.map (fun p => decide (alpha < p)) ∧
      (r.conclusion = "Stationary" ↔
        r.adf_is_stationary = some true ∧ r.kpss_is_stationary = some true) ∧
      (r.conclusion = "Non-stationary" ↔
        r.adf_is_stationary = some false ∧ r.kpss_is_stationary = some false) ∧
      (r.conclusion = "Inconclusive - conflicting results" ↔
        ∃ a k, r.adf_is_stationary = some a ∧ r.kpss_is_stationary = some k ∧
          a ≠ k) ∧
      (r.conclusion = "Unable to determine" ↔
        r.adf_is_stationary = none ∨ r.kpss_is_stationary = none) ∧
      (r.conclusion = "Stationary" ∨ r.conclusion = "Non-stationary" ∨
        r.conclusion = "Inconclusive - conflicting results" ∨
        r.conclusion = "Unable to determine") := by
  have hok : test_stationarity (some s) alpha adf_p kpss_p = .ok
      { adf_is_stationary := adf_p.map (fun p => decide (p < alpha)),
        kpss_is_stationary := kpss_p.map (fun p => decide (alpha < p)),
        conclusion :=
          (match adf_p.map (fun p => decide (p < alpha)),
              kpss_p.map (fun p => decide (alpha < p)) with
          | some a, some k =>
            if a && k then "Stationary"
            else if !a && !k then "Non-stationary"
            else "Inconclusive - conflicting results"
          | _, _ => "Unable to determine") } := by
    simp only [test_stationarity]
    rw [if_neg (not_not_intro ⟨ha1, ha2⟩), if_neg (by omega)]
  refine ⟨_, hok, rfl, rfl, ?_⟩
  cases adf_p with
  | none => simp
  | some pa =>
    cases kpss_p with
    | none => simp
    | some pk =>
      by_cases hpa : pa < alpha <;> by_cases hpk : alpha < pk <;>
        simp [hpa, hpk]

/-- Witness instantiating the C8 theorem: ten observations, alpha 0.05, ADF
p-value 0.01 (stationary) and KPSS p-value 0.1 (stationary) combine to the
Stationary conclusion. -/
theorem stationarity_conclusion_witness :
    test_stationarity (some (List.replicate 10 (some 0))) (1 / 20)
      (some (1 / 100)) (some (1 / 10)) =
      .ok ⟨some true, some true, "Stationary"⟩ := by
  obtain ⟨r, hok, hA, hK, h1, -⟩ := stationarity_conclusion
    (List.replicate 10 (some 0)) (1 / 20) (some (1 / 100)) (some (1 / 10))
    (by norm_num) (by norm_num) (by decide)
  have hA2 : r.adf_is_stationary = some true := by rw [hA]; norm_num
  have hK2 : r.kpss_is_stationary = some true := by rw [hK]; norm_num
  have hc : r.conclusion = "Stationary" := h1.mpr ⟨hA2, hK2⟩
  rw [hok]
  cases r with
  | mk a k c => simp_all

/-- Embedding of `validate_filter_value` (`src/backend/utils.py` lines
90-113): a falsy (empty) value passes straight through, a value outside the
allowed list raises a ValidationError whose message lists the allowed
values, and an allowed value is returned unchanged. -/
def validate_filter_value (filter_value : String) (allowed_values : List String)
    (filter_name : String) : Except String String :=
  if filter_value = "" then .ok filter_value
  else if filter_value ∈ allowed_values then .ok filter_value
  else .error ("Invalid " ++ filter_name ++ " \x27" ++ filter_value ++
    "\x27. Allowed values: " ++ String.intercalate ", " allowed_values)

/-- Embedding of one row of the backend events table served by
`/api/events`. -/
structure BackendEvent where
  event_date : Date
  event_type : Option String
  impact_type : Option String
  severity : Option String
deriving DecidableEq, Repr

/-- The date-filter prefix of the events handler, the named-column case of
`apply_date_filter_to_dataframe` applied to `event_date`. -/
def dateFiltered (events : List BackendEvent) (sd ed : Option Date) :
    List BackendEvent :=
  let d1 := match sd with
    | none => events
    | some s => events.filter (fun r => decide (s ≤ r.event_date))
  match ed with
  | none => d1
  | some e => d1.filter (fun r => decide (r.event_date ≤ e))

/-- Available values of one categorical column of the date-filtered frame:
`dropna().unique().tolist()`. -/
def availOf (events : List BackendEvent) (sel : BackendEvent → Option String) :
    List String :=
  uniqueVals ((events.map sel).filterMap id)

/-- One categorical filter block of the events handler: an absent or empty
query parameter is skipped (Python truthiness), otherwise the value is
validated against the available list — a `ValidationError` becomes an HTTP
400 response — and applied with the pandas `==` semantics. -/
def applyCatFilter (cur : List BackendEvent) (sel : BackendEvent → Option String)
    (v : Option String) (avail : List String) (name : String) :
    Except (String × Nat) (List BackendEvent) :=
  match v with
  | none => .ok cur
  | some vv =>
    if vv = "" then .ok cur
    else match validate_filter_value vv avail name with
      | .error msg => .error (msg, 400)
      | .ok _ => .ok (cur.filter (fun r => pandasEq (sel r) (some vv)))

/-- Embedding of the filter section of the `/api/events` handler
(`src/backend/app.py` lines 270-365): the three available-value lists are
collected from the date-filtered frame before any categorical filter is
applied, then the three filters run in order, each failure surfacing as a
(message, 400) response. -/
def get_events (events : List BackendEvent) (sd ed : Option Date)
    (event_type impact_type severity : Option String) :
    Except (String × Nat) (List BackendEvent) := do
  let dated := dateFiltered events sd ed
  let f1 ← applyCatFilter dated (fun r => r.event_type) event_type
    (availOf dated (fun r => r.event_type)) "event_type"
  let f2 ← applyCatFilter f1 (fun r => r.impact_type) impact_type
    (availOf dated (fun r => r.impact_type)) "impact_type"
  applyCatFilter f2 (fun r => r.severity) severity
    (availOf dated (fun r => r.severity)) "severity"

/-- A supplied categorical query parameter that the handler does not reject:
absent, empty, or among the available values. -/
def passes (v : Option String) (avail : List String) : Prop :=
  match v with
  | none => True
  | some vv => vv = "" ∨ vv ∈ avail

/-- Propagation of an error through the Except monad bind. -/
theorem except_bind_error {ε α β : Type} (e : ε) (f : α → Except ε β) :
    (Except.error e >>= f) = Except.error e := rfl

/-- Reduction of a successful Except bind. -/
theorem except_bind_ok {ε α β : Type} (a : α) (f : α → Except ε β) :
    (Except.ok a >>= f) = f a := rfl

/-- Claim C9: an allowed filter value is returned unchanged by
`validate_filter_value`, and every supplied non-empty categorical filter
value outside the available values makes the events request fail with HTTP
status 400 and an error message that contains the comma-separated list of
allowed values (earlier filters assumed not rejected, as the handler checks
them in order). -/
theorem filter_validation (events : List BackendEvent) (sd ed : Option Date)
    (v : String) (allowed : List String) (name : String)
    (etype itype sev : Option String) :
    (v ∈ allowed → validate_filter_value v allowed name = .ok v) ∧
    (v ≠ "" →
      v ∉ availOf (dateFiltered events sd ed) (fun r => r.event_type) →
      get_events events sd ed (some v) itype sev =
        .error ("Invalid event_type \x27" ++ v ++ "\x27. Allowed values: " ++
          String.intercalate ", "
            (availOf (dateFiltered events sd ed) (fun r => r.event_type)), 400) ∧
      ∃ pre post,
        ("Invalid event_type \x27" ++ v ++ "\x27. Allowed values: " ++
          String.intercalate ", "
            (availOf (dateFiltered events sd ed) (fun r => r.event_type))) =
        pre ++ String.intercalate ", "
          (availOf (dateFiltered events sd ed) (fun r => r.event_type)) ++ post) ∧
    (passes etype (availOf (dateFiltered events sd ed) (fun r => r.event_type)) →
      v ≠ "" →
      v ∉ availOf (dateFiltered events sd ed) (fun r => r.impact_type) →
      get_events events sd ed etype (some v) sev =
        .error ("Invalid impact_type \x27" ++ v ++ "\x27. Allowed values: " ++
          String.intercalate ", "
            (availOf (dateFiltered events sd ed) (fun r => r.impact_type)), 400)) ∧
    (passes etype (availOf (dateFiltered events sd ed) (fun r => r.event_type)) →
      passes itype (availOf (dateFiltered events sd ed) (fun r => r.impact_type)) →
      v ≠ "" →
      v ∉ availOf (dateFiltered events sd ed) (fun r => r.severity) →
      get_events events sd ed etype itype (some v) =
        .error ("Invalid severity \x27" ++ v ++ "\x27. Allowed values: " ++
          String.intercalate ", "
            (availOf (dateFiltered events sd ed) (fun r => r.severity)), 400)) := by
  refine ⟨?_, ?_, ?_, ?_⟩
  · intro hmem
    by_cases hv : v = "" <;> simp [validate_filter_value, hv, hmem]
  · intro hv hnot
    refine ⟨?_, "Invalid event_type \x27" ++ v ++ "\x27. Allowed values: ", "", ?_⟩
    · simp [get_events, applyCatFilter, validate_filter_value, hv, hnot,
        except_bind_error, except_bind_ok]
    · simp
  · intro hpass hv hnot
    have hfirst : ∃ cur2,
        applyCatFilter (dateFiltered events sd ed) (fun r => r.event_type) etype
          (availOf (dateFiltered events sd ed) (fun r => r.event_type))
          "event_type" = .ok cur2 := by
      cases etype with
      | none => exact ⟨_, rfl⟩
      | some vv =>
        simp only [passes] at hpass
        rcases hpass with h0 | hmem
        · exact ⟨dateFiltered events sd ed, by simp [applyCatFilter, h0]⟩
        · by_cases h0 : vv = ""
          · exact ⟨dateFiltered events sd ed, by simp [applyCatFilter, h0]⟩
          · exact ⟨(dateFiltered events sd ed).filter
              (fun r => pandasEq r.event_type (some vv)),
              by simp [applyCatFilter, validate_filter_value, h0, hmem]⟩
    obtain ⟨c2, hc2⟩ := hfirst
    simp only [get_events, hc2, except_bind_ok]
    simp [applyCatFilter, validate_filter_value, hv, hnot, except_bind_error]
  · intro hpass1 hpass2 hv hnot
    have hfirst : ∃ cur2,
        applyCatFilter (dateFiltered events sd ed) (fun r => r.event_type) etype
          (availOf (dateFiltered events sd ed) (fun r => r.event_type))
          "event_type" = .ok cur2 := by
      cases etype with
      | none => exact ⟨_, rfl⟩
      | some vv =>
        simp only [passes] at hpass1
        rcases hpass1 with h0 | hmem
        · exact ⟨dateFiltered events sd ed, by simp [applyCatFilter, h0]⟩
        · by_cases h0 : vv = ""
          · exact ⟨dateFiltered events sd ed, by simp [applyCatFilter, h0]⟩
          · exact ⟨(dateFiltered events sd ed).filter
              (fun r => pandasEq r.event_type (some vv)),
              by simp [applyCatFilter, validate_filter_value, h0, hmem]⟩
    obtain ⟨c2, hc2⟩ := hfirst
    have hsecond : ∃ cur3,
        applyCatFilter c2 (fun r => r.impact_type) itype
          (availOf (dateFiltered events sd ed) (fun r => r.impact_type))
          "impact_type" = .ok cur3 := by
      cases itype with
      | none => exact ⟨_, rfl⟩
      | some vv =>
        simp only [passes] at hpass2
        rcases hpass2 with h0 | hmem
        · exact ⟨c2, by simp [applyCatFilter, h0]⟩
        · by_cases h0 : vv = ""
          · exact ⟨c2, by simp [applyCatFilter, h0]⟩
          · exact ⟨c2.filter (fun r => pandasEq r.impact_type (some vv)),
              by simp [applyCatFilter, validate_filter_value, h0, hmem]⟩
    obtain ⟨c3, hc3⟩ := hsecond
    simp only [get_events, hc2, hc3, except_bind_ok]
    simp [applyCatFilter, validate_filter_value, hv, hnot, except_bind_error]

/-- One backend event used to exercise the filter validation. -/
def evW9 : List BackendEvent :=
  [{ event_date := 0, event_type := some "Economic",
     impact_type := some "Negative", severity := some "High" }]

/-- Witness instantiating the C9 theorem: an allowed value passes through
unchanged, and filtering by a nonexistent event type yields HTTP 400 with
the allowed values in the message. -/
theorem filter_validation_witness :
    validate_filter_value "Economic" ["Economic", "Conflict"] "event_type" =
      .ok "Economic" ∧
    get_events evW9 none none (some "Nonexistent") none none =
      .error ("Invalid event_type \x27Nonexistent\x27. Allowed values: Economic",
        400) := by
  refine ⟨?_, ?_⟩
  · exact (filter_validation evW9 none none "Economic" ["Economic", "Conflict"]
      "event_type" none none none).1 (by decide)
  · exact ((filter_validation evW9 none none "Nonexistent" [] "event_type"
      none none none).2.1 (by decide) (by decide)).1.trans (by decide)

/-- A Python object in the heap fragment `align_events_with_prices`
touches: a price frame, an event frame, or an event frame extended with the
derived columns. -/
inductive HObj where
  | priceObj (p : PriceDF) : HObj
  | eventObj (e : List EventRow) : HObj
  | alignedObj (a : List AlignedRow) : HObj
deriving DecidableEq, Repr

/-- A heap: object identities mapped to objects. -/
abbrev Heap := List (Nat × HObj)

/-- Reading a reference. -/
def heapGet (h : Heap) (r : Nat) : Option HObj :=
  (h.find? (fun p => p.1 == r)).map Prod.snd

/-- Writing a reference in place (allocating it at the end if absent). -/
def heapSet : Heap → Nat → HObj → Heap
  | [], r, o => [(r, o)]
  | p :: rest, r, o =>
    if p.1 = r then (r, o) :: rest else p :: heapSet rest r o

/-- A reference unused by the heap, larger than every allocated one. -/
def freshRef (h : Heap) : Nat := (h.map Prod.fst).foldr max 0 + 1

/-- Writing one reference leaves every other reference unchanged. -/
theorem heapGet_heapSet_ne (h : Heap) (c r : Nat) (o : HObj) (hne : r ≠ c) :
    heapGet (heapSet h c o) r = heapGet h r := by
  induction h with
  | nil =>
    simp only [heapSet, heapGet, List.find?]
    rw [show (c == r) = false by simp [Ne.symm hne]]
  | cons p rest ih =>
    by_cases hp : p.1 = c
    · simp only [heapSet, if_pos hp, heapGet, List.find?]
      have h1 : (c == r) = false := by simp [Ne.symm hne]
      have h2 : (p.1 == r) = false := by simp [hp, Ne.symm hne]
      rw [h1, h2]
    · simp only [heapSet, if_neg hp, heapGet, List.find?]
      by_cases hpr : p.1 = r
      · rw [show (p.1 == r) = true by simp [hpr]]
      · rw [show (p.1 == r) = false by simp [hpr]]
        exact ih

/-- Writing a reference makes it hold the written object. -/
theorem heapGet_heapSet_eq (h : Heap) (c : Nat) (o : HObj) :
    heapGet (heapSet h c o) c = some o := by
  induction h with
  | nil => simp [heapSet, heapGet, List.find?]
  | cons p rest ih =>
    by_cases hp : p.1 = c
    · simp [heapSet, if_pos hp, heapGet, List.find?]
    · simp only [heapSet, if_neg hp, heapGet, List.find?]
      rw [show (p.1 == c) = false by simp [hp]]
      exact ih

/-- Every allocated reference is below the fresh one. -/
theorem lt_freshRef_of_alloc (h : Heap) (r : Nat) (ha : heapGet h r ≠ none) :
    r < freshRef h := by
  induction h with
  | nil => simp [heapGet, List.find?] at ha
  | cons p rest ih =>
    simp only [heapGet, List.find?] at ha
    by_cases hpr : p.1 = r
    · simp only [freshRef, List.map_cons, List.foldr_cons]
      omega
    · rw [show (p.1 == r) = false by simp [hpr]] at ha
      have := ih ha
      simp only [freshRef, List.map_cons, List.foldr_cons] at this ⊢
      omega

/-- The fresh reference is unallocated. -/
theorem heapGet_freshRef (h : Heap) : heapGet h (freshRef h) = none := by
  by_contra hne
  exact absurd (lt_freshRef_of_alloc h (freshRef h) hne) (lt_irrefl _)

/-- Setting at the boundary of an append writes the head of the right
part. -/
theorem set_append_length {α : Type} (A B : List α) (x : α) :
    (A ++ B).set A.length x = A ++ B.set 0 x := by
  induction A with
  | nil => simp
  | cons a as ih => simp [List.set, ih]

/-- The same, phrased for an index known to equal the left length. -/
theorem set_append_of_length {α : Type} (A B : List α) (k : Nat) (x : α)
    (hA : A.length = k) : (A ++ B).set k x = A ++ B.set 0 x := by
  subst hA
  exact set_append_length A B x

/-- One iteration of the aligner loop on the heap: read the copy, recompute
row `i`, write the copy back. -/
def alignStep (prices : List (Date × ℚ)) (w : Int) (c : Nat)
    (hh : Heap) (i : Nat) : Heap :=
  match heapGet hh c with
  | some (.alignedObj rows) =>
    match rows[i]? with
    | some r => heapSet hh c (.alignedObj (rows.set i (alignOne prices w r)))
    | none => hh
  | _ => hh

/-- The per-row mutation loop of the aligner on the heap. -/
def alignLoop (prices : List (Date × ℚ)) (w : Int) (c : Nat) (n : Nat)
    (h : Heap) : Heap :=
  (List.range n).foldl (alignStep prices w c) h

/-- Reduction of one loop iteration that finds row `i` on the copy. -/
theorem alignStep_write (prices : List (Date × ℚ)) (w : Int) (c : Nat)
    (hh : Heap) (i : Nat) (rows : List AlignedRow) (r : AlignedRow)
    (hc : heapGet hh c = some (.alignedObj rows)) (hr : rows[i]? = some r) :
    alignStep prices w c hh i =
      heapSet hh c (.alignedObj (rows.set i (alignOne prices w r))) := by
  unfold alignStep
  rw [hc]
  show (match rows[i]? with
    | some r => heapSet hh c (.alignedObj (rows.set i (alignOne prices w r)))
    | none => hh) = _
  rw [hr]

/-- Reduction of one loop iteration past the end of the copy. -/
theorem alignStep_skip (prices : List (Date × ℚ)) (w : Int) (c : Nat)
    (hh : Heap) (i : Nat) (rows : List AlignedRow)
    (hc : heapGet hh c = some (.alignedObj rows)) (hr : rows[i]? = none) :
    alignStep prices w c hh i = hh := by
  unfold alignStep
  rw [hc]
  show (match rows[i]? with
    | some r => heapSet hh c (.alignedObj (rows.set i (alignOne prices w r)))
    | none => hh) = _
  rw [hr]

/-- One loop iteration writes nothing outside the copy. -/
theorem alignStep_frame (prices : List (Date × ℚ)) (w : Int) (c : Nat)
    (hh : Heap) (i : Nat) (r : Nat) (hrc : r ≠ c) :
    heapGet (alignStep prices w c hh i) r = heapGet hh r := by
  unfold alignStep
  split
  · split
    · exact heapGet_heapSet_ne hh c r _ hrc
    · rfl
  · rfl

/-- The whole loop writes nothing outside the copy. -/
theorem alignLoop_frame (prices : List (Date × ℚ)) (w : Int) (c : Nat)
    (r : Nat) (hrc : r ≠ c) :
    ∀ (l : List Nat) (h : Heap),
      heapGet (l.foldl (alignStep prices w c) h) r = heapGet h r := by
  intro l
  induction l with
  | nil => intro h; rfl
  | cons x xs ih =>
    intro h
    rw [List.foldl_cons, ih, alignStep_frame prices w c h x r hrc]

/-- After `n` loop iterations the copy holds the first `n` rows updated and
the rest untouched. -/
theorem alignLoop_content (prices : List (Date × ℚ)) (w : Int) (c : Nat) :
    ∀ (n : Nat) (h : Heap) (rows : List AlignedRow),
      heapGet h c = some (.alignedObj rows) →
      heapGet (alignLoop prices w c n h) c =
        some (.alignedObj
          ((rows.take n).map (alignOne prices w) ++ rows.drop n)) := by
  intro n
  induction n with
  | zero => intro h rows hc; simpa [alignLoop] using hc
  | succ k ih =>
    intro h rows hc
    rw [alignLoop, List.range_succ, List.foldl_append, List.foldl_cons,
      List.foldl_nil]
    have hmid := ih h rows hc
    rw [alignLoop] at hmid
    by_cases hk : k < rows.length
    · have hmlen : ((rows.take k).map (alignOne prices w)).length = k := by
        simp [Nat.min_eq_left (le_of_lt hk)]
      have hget : ((rows.take k).map (alignOne prices w) ++ rows.drop k)[k]? =
          some rows[k] := by
        rw [List.getElem?_append_right (by omega)]
        rw [hmlen]
        simp [hk]
      rw [alignStep_write prices w c _ k _ (rows.get ⟨k, hk⟩) hmid
        (by simpa using hget)]
      rw [heapGet_heapSet_eq]
      congr 2
      rw [set_append_of_length _ _ k _ hmlen]
      rw [List.drop_eq_getElem_cons hk]
      rw [List.take_succ, List.getElem?_eq_getElem hk]
      simp only [List.set, List.map_append, List.map_cons, List.map_nil,
        List.map_take, List.append_assoc, List.singleton_append,
        List.getElem_map, List.take_succ]
      simp
    · have hlen : rows.length ≤ k := by omega
      have hget : ((rows.take k).map (alignOne prices w) ++ rows.drop k)[k]? =
          none := by
        apply List.getElem?_eq_none
        simp only [List.length_append, List.length_map, List.length_take,
          List.length_drop, Nat.min_eq_right hlen]
        omega
      rw [alignStep_skip prices w c _ k _ hmid hget, hmid]
      congr 2
      rw [List.take_of_length_le hlen, List.take_of_length_le (by omega),
        List.drop_of_length_le hlen, List.drop_of_length_le (by omega)]

/-- Stateful embedding of `align_events_with_prices` for the frame-effect
claim: the argument frames are references into a heap; `event_df.copy()`
(source line 77) allocates a fresh object, the date conversion plus column
initialisation (lines 81-92) and the per-row `.at` writes (lines 96-150)
mutate only that object, and the price frame is only read.  Validation
failures raise before anything is written. -/
def align_st (h : Heap) (pr er : Nat) (pc : String) (w : Int) :
    Heap × Except PyError Nat :=
  match heapGet h pr, heapGet h er with
  | some (.priceObj pdf), some (.eventObj edf) =>
    if pdf.rows.isEmpty then
      (h, .error (.eventIntegrationError "Price DataFrame is None or empty"))
    else if edf.isEmpty then
      (h, .error (.eventIntegrationError "Event DataFrame is None or empty"))
    else if pc ∈ pdf.cols then
      if w ≤ 0 then
        (h, .error (.valueError "window_days must be positive"))
      else if pdf.datetimeIndex then
        let c := freshRef h
        let h1 := heapSet h c (.eventObj edf)
        match toDatetime (edf.map (fun e => e.event_date)) with
        | .error e =>
          (h1, .error (.eventIntegrationError
            ("Failed to convert event dates to datetime: " ++ e)))
        | .ok ds =>
          let h2 := heapSet h1 c
            (.alignedObj ((edf.zip ds).map (fun p => initAligned p.1 p.2)))
          (alignLoop (pdf.column pc) w c edf.length h2, .ok c)
      else
        (h, .error (.eventIntegrationError "Price DataFrame must have DatetimeIndex"))
    else
      (h, .error (.eventIntegrationError
        ("Price column \x27" ++ pc ++ "\x27 not found in price_df")))
  | _, _ => (h, .error (.eventIntegrationError "invalid reference"))

/-- Claim C10: `align_events_with_prices` never mutates its arguments — after
any call, raising or successful, the heap still maps the price and event
references to the objects they held before; on success the derived columns
live only on a freshly allocated copy, which is what is returned, and that
copy holds exactly the rows the pure embedding computes. -/
theorem align_no_mutation (h : Heap) (pr er : Nat) (pc : String) (w : Int) :
    heapGet (align_st h pr er pc w).1 pr = heapGet h pr ∧
    heapGet (align_st h pr er pc w).1 er = heapGet h er ∧
    ∀ pdf edf out,
      heapGet h pr = some (.priceObj pdf) →
      heapGet h er = some (.eventObj edf) →
      align_events_with_prices (some pdf) (some edf) pc w = .ok out →
      (align_st h pr er pc w).2 = .ok (freshRef h) ∧
      heapGet h (freshRef h) = none ∧
      heapGet (align_st h pr er pc w).1 (freshRef h) =
        some (.alignedObj out) := by
  have frame : ∀ r, r ≠ freshRef h →
      heapGet (align_st h pr er pc w).1 r = heapGet h r := by
    intro r hrf
    cases hgp : heapGet h pr with
    | none => simp [align_st, hgp]
    | some op =>
      cases op with
      | eventObj e => simp [align_st, hgp]
      | alignedObj a => simp [align_st, hgp]
      | priceObj pdf =>
        cases hge : heapGet h er with
        | none => simp [align_st, hgp, hge]
        | some oe =>
          cases oe with
          | priceObj p2 => simp [align_st, hgp, hge]
          | alignedObj a2 => simp [align_st, hgp, hge]
          | eventObj edf =>
            simp only [align_st, hgp, hge]
            repeat' split
            any_goals rfl
            · exact heapGet_heapSet_ne h (freshRef h) r _ hrf
            · rw [alignLoop, alignLoop_frame (pdf.column pc) w (freshRef h) r hrf,
                heapGet_heapSet_ne _ _ _ _ hrf,
                heapGet_heapSet_ne _ _ _ _ hrf]
  constructor
  · by_cases hpr : heapGet h pr = none
    · cases hge : heapGet h er <;> simp [align_st, hpr, hge]
    · exact frame pr (fun he => absurd (lt_freshRef_of_alloc h pr hpr)
        (by rw [he]; exact lt_irrefl _))
  constructor
  · by_cases her : heapGet h er = none
    · cases hgp : heapGet h pr with
      | none => simp [align_st, hgp, her]
      | some op => cases op <;> simp [align_st, hgp, her]
    · exact frame er (fun he => absurd (lt_freshRef_of_alloc h er her)
        (by rw [he]; exact lt_irrefl _))
  intro pdf edf out hgp hge hok
  obtain ⟨h1, h2, h3, h4, h5, ds, htd, hout⟩ := align_ok_elim pdf edf pc w out hok
  have h1e : pdf.rows.isEmpty = false := by simpa [List.isEmpty_iff] using h1
  have h2e : edf.isEmpty = false := by simpa [List.isEmpty_iff] using h2
  have hred : align_st h pr er pc w =
      (alignLoop (pdf.column pc) w (freshRef h) edf.length
        (heapSet (heapSet h (freshRef h) (.eventObj edf)) (freshRef h)
          (.alignedObj ((edf.zip ds).map (fun p => initAligned p.1 p.2)))),
       .ok (freshRef h)) := by
    simp only [align_st, hgp, hge, h1e, h2e, Bool.false_eq_true, if_false,
      if_pos h3, if_neg (by omega : ¬w ≤ 0), h5, if_true, htd]
  refine ⟨by rw [hred], heapGet_freshRef h, ?_⟩
  rw [hred]
  have hinit : heapGet (heapSet (heapSet h (freshRef h) (.eventObj edf))
      (freshRef h) (.alignedObj ((edf.zip ds).map (fun p => initAligned p.1 p.2))))
      (freshRef h) =
      some (.alignedObj ((edf.zip ds).map (fun p => initAligned p.1 p.2))) :=
    heapGet_heapSet_eq _ _ _
  have hcontent := alignLoop_content (pdf.column pc) w (freshRef h) edf.length _ _ hinit
  rw [hcontent]
  have hdl : ds.length = edf.length := by
    simpa using toDatetime_length _ _ htd
  have hlen : ((edf.zip ds).map (fun p => initAligned p.1 p.2)).length = edf.length := by
    simp [hdl]
  rw [List.take_of_length_le (by omega), List.drop_of_length_le (by omega)]
  rw [hout]
  simp [List.map_map, Function.comp]

/-- A concrete heap holding the two-point price frame and one-event frame. -/
def heapW : Heap := [(1, .priceObj pdfW1), (2, .eventObj edfW1)]

/-- Witness instantiating the C10 theorem: after a successful stateful run
both inputs still hold their original objects and the fresh reference 3
holds the aligned output. -/
theorem align_no_mutation_witness :
    heapGet (align_st heapW 1 2 "price" 30).1 1 = some (.priceObj pdfW1) ∧
    heapGet (align_st heapW 1 2 "price" 30).1 2 = some (.eventObj edfW1) ∧
    (align_st heapW 1 2 "price" 30).2 = .ok 3 ∧
    heapGet (align_st heapW 1 2 "price" 30).1 3 = some (.alignedObj outW1) := by
  have h := align_no_mutation heapW 1 2 "price" 30
  have h3 := h.2.2 pdfW1 edfW1 outW1 (by decide) (by decide) align_outW1
  have hfr : freshRef heapW = 3 := by decide
  exact ⟨h.1.trans (by decide), h.2.1.trans (by decide),
    hfr ▸ h3.1, hfr ▸ h3.2.2⟩

end Oil
